import Mathlib

/-!
Verification of the HardBore file manager (Rust sources under
`src-tauri/src/`) against its natural-language specification.

The Rust code is shallowly embedded: pure fragments become Lean
functions; interactions with the operating system (file metadata,
SQLite, spawned processes) are modelled by explicit oracle inputs that
enumerate the outcomes the code distinguishes.  Machine integers are
modelled by `Nat`/`Int` (no overflow is relevant to the claims below).
-/

namespace HardBore

/-! ## fs_engine.rs : data model -/

/-- Mirror of the Rust `FileEntry` struct (fs_engine.rs, lines 17-30). -/
structure FileEntry where
  name : String
  path : String
  is_dir : Bool
  is_symlink : Bool
  size : Nat
  modified : Nat
  permissions : String
  owner : Nat
  group : Nat
  extension : Option String
  hidden : Bool
deriving DecidableEq, Repr

/-- The slice of `std::fs::Metadata` that `get_file_entry` reads:
directory flag, symlink flag, byte length, unix mode, uid, gid, and the
modification time as seconds since the epoch (`none` when
`modified()`/`duration_since` fails). -/
structure FsMeta where
  isDir : Bool
  isSymlink : Bool
  len : Nat
  mode : Nat
  uid : Nat
  gid : Nat
  modifiedSecs : Option Nat
deriving DecidableEq, Repr

/-- Rust `name.starts_with('.')`. -/
def startsWithDot (s : String) : Bool :=
  match s.data with
  | [] => false
  | c :: _ => c = '.'

/-- ASCII lowering of one character, the executable model of the
character mapping used by Rust `str::to_lowercase` on the names and
extensions appearing in the claims. -/
def lowerChar (c : Char) : Char :=
  if 'A' ≤ c ∧ c ≤ 'Z' then Char.ofNat (c.toNat + 32) else c

/-- Lowercase a string character-wise (model of Rust `to_lowercase`). -/
def lowerStr (s : String) : String :=
  ⟨s.data.map lowerChar⟩

/-- Mirror of `mode_to_string` (fs_engine.rs, lines 43-61, unix). -/
def modeToString (mode : Nat) (isDir : Bool) : String :=
  ⟨[if isDir then 'd' else '-',
    if mode &&& 0o400 ≠ 0 then 'r' else '-',
    if mode &&& 0o200 ≠ 0 then 'w' else '-',
    if mode &&& 0o100 ≠ 0 then 'x' else '-',
    if mode &&& 0o040 ≠ 0 then 'r' else '-',
    if mode &&& 0o020 ≠ 0 then 'w' else '-',
    if mode &&& 0o010 ≠ 0 then 'x' else '-',
    if mode &&& 0o004 ≠ 0 then 'r' else '-',
    if mode &&& 0o002 ≠ 0 then 'w' else '-',
    if mode &&& 0o001 ≠ 0 then 'x' else '-']⟩

/-- One directory entry as the operating system presents it to
`get_file_entry`: the `symlink_metadata` result, the `fs::metadata`
(symlink-following) result, the `file_name()` component, the full path
string, and the raw `extension()` component. -/
structure RawNode where
  symMeta : Option FsMeta
  followMeta : Option FsMeta
  fname : Option String
  pstr : String
  pext : Option String
deriving DecidableEq, Repr

/-- Mirror of `get_file_entry` (fs_engine.rs, lines 72-138).
`none` models the early `?` returns. -/
def getFileEntry (n : RawNode) : Option FileEntry :=
  match n.symMeta with
  | none => none
  | some metadata =>
    match n.fname with
    | none => none
    | some name =>
      let isSym := metadata.isSymlink
      let realMeta := if isSym then n.followMeta else some metadata
      let isDir := (realMeta.map (fun m => m.isDir)).getD false
      let size := if isDir then 0 else (realMeta.map (fun m => m.len)).getD metadata.len
      let modified := metadata.modifiedSecs.getD 0
      let permissions := modeToString metadata.mode isDir
      let ext := if isDir then none else n.pext.map lowerStr
      let hidden := startsWithDot name
      some { name := name, path := n.pstr, is_dir := isDir, is_symlink := isSym,
             size := size, modified := modified, permissions := permissions,
             owner := metadata.uid, group := metadata.gid,
             extension := ext, hidden := hidden }

/-- Mirror of `crawl_directory` (fs_engine.rs, lines 187-198): every
walked node that yields a `FileEntry` is collected.  The walk itself is
an operating-system oracle, given as the list of nodes it produced. -/
def crawlDirectory (walked : List RawNode) : List FileEntry :=
  walked.filterMap getFileEntry

/-- The per-entry invariant claimed of the crawler's output. -/
def entryInvariant (e : FileEntry) : Prop :=
  (e.is_dir = true → e.size = 0 ∧ e.extension = none) ∧
  (e.hidden = startsWithDot e.name)

/-- Lexicographic comparison of character lists by code point, the
model of Rust `str::cmp` (byte-wise UTF-8 order coincides with code
point order). -/
def cmpChars : List Char → List Char → Ordering
  | [], [] => Ordering.eq
  | [], _ :: _ => Ordering.lt
  | _ :: _, [] => Ordering.gt
  | a :: as, b :: bs =>
    if a.toNat < b.toNat then Ordering.lt
    else if b.toNat < a.toNat then Ordering.gt
    else cmpChars as bs

/-- The comparator passed to `entries.sort_by`
(fs_engine.rs, lines 165-171): directory status first, then the
lowercased names. -/
def entryCmp (a b : FileEntry) : Ordering :=
  if a.is_dir && !b.is_dir then Ordering.lt
  else if !a.is_dir && b.is_dir then Ordering.gt
  else cmpChars (lowerStr a.name).data (lowerStr b.name).data

/-- Boolean "not greater" order induced by `entryCmp`; sorting by it is
the model of Rust's comparator-based stable sort. -/
def entryLe (a b : FileEntry) : Bool :=
  entryCmp a b != Ordering.gt

/-- Mirror of the pure core of `read_directory`
(fs_engine.rs, lines 140-185): build entries from the raw listing, drop
hidden ones unless `show_hidden`, and sort with `entryCmp`.  The raw
directory listing is the operating-system oracle input. -/
def readDirectoryEntries (listing : List RawNode) (show_hidden : Bool) :
    List FileEntry :=
  ((listing.filterMap getFileEntry).filter
    (fun e => show_hidden || !e.hidden)).mergeSort entryLe

theorem cmpChars_swap (x y : List Char) : cmpChars y x = (cmpChars x y).swap := by
  induction x generalizing y with
  | nil => cases y <;> rfl
  | cons a as ih =>
    cases y with
    | nil => rfl
    | cons b bs =>
      simp only [cmpChars]
      rcases Nat.lt_trichotomy a.toNat b.toNat with h | h | h
      · have h' : ¬ b.toNat < a.toNat := Nat.lt_asymm h
        simp [h, h', Ordering.swap]
      · have h1 : ¬ a.toNat < b.toNat := by omega
        have h2 : ¬ b.toNat < a.toNat := by omega
        simp only [if_neg h1, if_neg h2]
        exact ih bs
      · have h' : ¬ a.toNat < b.toNat := Nat.lt_asymm h
        simp [h, h', Ordering.swap]

theorem cmpChars_trans {x y z : List Char}
    (hxy : cmpChars x y ≠ Ordering.gt) (hyz : cmpChars y z ≠ Ordering.gt) :
    cmpChars x z ≠ Ordering.gt := by
  induction x generalizing y z with
  | nil => cases z <;> simp [cmpChars]
  | cons a as ih =>
    cases y with
    | nil => simp [cmpChars] at hxy
    | cons b bs =>
      cases z with
      | nil => simp [cmpChars] at hyz
      | cons c cs =>
        simp only [cmpChars] at hxy hyz ⊢
        rcases Nat.lt_trichotomy a.toNat b.toNat with hab | hab | hab
        · rcases Nat.lt_trichotomy b.toNat c.toNat with hbc | hbc | hbc
          · have hac : a.toNat < c.toNat := Nat.lt_trans hab hbc
            simp [hac]
          · have hac : a.toNat < c.toNat := by omega
            simp [hac]
          · rw [if_neg (Nat.lt_asymm hbc), if_pos hbc] at hyz
            exact absurd rfl hyz
        · rw [if_neg (by omega), if_neg (by omega)] at hxy
          rcases Nat.lt_trichotomy b.toNat c.toNat with hbc | hbc | hbc
          · have hac : a.toNat < c.toNat := by omega
            simp [hac]
          · rw [if_neg (by omega), if_neg (by omega)] at hyz
            rw [if_neg (by omega), if_neg (by omega)]
            exact ih hxy hyz
          · rw [if_neg (Nat.lt_asymm hbc), if_pos hbc] at hyz
            exact absurd rfl hyz
        · rw [if_neg (Nat.lt_asymm hab), if_pos hab] at hxy
          exact absurd rfl hxy

theorem entryCmp_swap (a b : FileEntry) :
    entryCmp b a = (entryCmp a b).swap := by
  unfold entryCmp
  cases ha : a.is_dir <;> cases hb : b.is_dir <;>
    simp [cmpChars_swap (lowerStr a.name).data (lowerStr b.name).data,
      Ordering.swap]

theorem entryCmp_trans (a b c : FileEntry)
    (hab : entryCmp a b ≠ Ordering.gt) (hbc : entryCmp b c ≠ Ordering.gt) :
    entryCmp a c ≠ Ordering.gt := by
  unfold entryCmp at hab hbc ⊢
  cases ha : a.is_dir <;> cases hb : b.is_dir <;> cases hc : c.is_dir <;>
    simp only [ha, hb, hc, Bool.not_true, Bool.not_false, Bool.and_self,
      Bool.and_true, Bool.and_false, Bool.true_and, Bool.false_and,
      if_true, if_false, ite_true, ite_false] at hab hbc ⊢ <;>
    first
    | exact cmpChars_trans hab hbc
    | simp_all

theorem entryLe_iff (a b : FileEntry) :
    entryLe a b = true ↔ entryCmp a b ≠ Ordering.gt := by
  unfold entryLe
  cases entryCmp a b <;> decide

theorem entryLe_trans (a b c : FileEntry)
    (hab : entryLe a b = true) (hbc : entryLe b c = true) :
    entryLe a c = true :=
  (entryLe_iff a c).mpr
    (entryCmp_trans a b c ((entryLe_iff a b).mp hab) ((entryLe_iff b c).mp hbc))

theorem entryLe_total (a b : FileEntry) :
    (entryLe a b || entryLe b a) = true := by
  have hs := entryCmp_swap a b
  unfold entryLe
  cases h : entryCmp a b <;> rw [hs, h] <;> decide

theorem getFileEntry_invariant (n : RawNode) (e : FileEntry)
    (h : getFileEntry n = some e) : entryInvariant e := by
  unfold getFileEntry at h
  cases hm : n.symMeta with
  | none => simp [hm] at h
  | some metadata =>
    cases hf : n.fname with
    | none => simp [hm, hf] at h
    | some name =>
      simp only [hm, hf] at h
      injection h with h
      subst h
      constructor
      · intro hd
        simp only at hd
        constructor
        · simp [hd]
        · simp [hd]
      · rfl

/-- C1: Every `FileEntry` produced by the crawler (`get_file_entry`,
hence both `read_directory` and `crawl_directory`) satisfies: if
`is_dir` then `size == 0` and `extension` is absent; and `hidden` is
true exactly when `name` begins with `'.'`. -/
theorem C1_crawler_entry_invariants :
    (∀ (n : RawNode) (e : FileEntry), getFileEntry n = some e →
      (e.is_dir = true → e.size = 0 ∧ e.extension = none) ∧
      (e.hidden = true ↔ startsWithDot e.name = true)) ∧
    (∀ (walked : List RawNode) (e : FileEntry), e ∈ crawlDirectory walked →
      (e.is_dir = true → e.size = 0 ∧ e.extension = none) ∧
      (e.hidden = true ↔ startsWithDot e.name = true)) ∧
    (∀ (listing : List RawNode) (show_hidden : Bool) (e : FileEntry),
      e ∈ readDirectoryEntries listing show_hidden →
      (e.is_dir = true → e.size = 0 ∧ e.extension = none) ∧
      (e.hidden = true ↔ startsWithDot e.name = true)) := by
  have base : ∀ (n : RawNode) (e : FileEntry), getFileEntry n = some e →
      (e.is_dir = true → e.size = 0 ∧ e.extension = none) ∧
      (e.hidden = true ↔ startsWithDot e.name = true) := by
    intro n e h
    have hi := getFileEntry_invariant n e h
    exact ⟨hi.1, by rw [hi.2]⟩
  refine ⟨base, ?_, ?_⟩
  · intro walked e he
    rcases List.mem_filterMap.mp he with ⟨n, _, hn⟩
    exact base n e hn
  · intro listing show_hidden e he
    unfold readDirectoryEntries at he
    have he' := List.mem_mergeSort.mp he
    rcases List.mem_filter.mp he' with ⟨he'', _⟩
    rcases List.mem_filterMap.mp he'' with ⟨n, _, hn⟩
    exact base n e hn

/-- Concrete crawl node used to witness C1: a hidden directory. -/
def c1Node : RawNode :=
  ⟨some ⟨true, false, 4096, 493, 1000, 1000, some 10⟩,
   some ⟨true, false, 4096, 493, 1000, 1000, some 10⟩,
   some ".git", "/repo/.git", some "git"⟩

/-- The entry `get_file_entry` produces on `c1Node`. -/
def c1Entry : FileEntry :=
  { name := ".git", path := "/repo/.git", is_dir := true,
    is_symlink := false, size := 0, modified := 10,
    permissions := "drwxr-xr-x", owner := 1000, group := 1000,
    extension := none, hidden := true }

theorem C1_crawler_entry_invariants_witness :
    getFileEntry c1Node = some c1Entry ∧
    ((c1Entry.is_dir = true → c1Entry.size = 0 ∧ c1Entry.extension = none) ∧
     (c1Entry.hidden = true ↔ startsWithDot c1Entry.name = true)) :=
  ⟨by decide, C1_crawler_entry_invariants.1 c1Node c1Entry (by decide)⟩

/-- C2: For every successful `read_directory(path, show_hidden)` result,
the entries list is sorted so that for any adjacent pair `(a, b)`:
either `a.is_dir` and not `b.is_dir`, or `a.is_dir == b.is_dir` and
`lowercase(a.name) <= lowercase(b.name)` (directories before files;
within each class, case-insensitive by name). -/
theorem C2_read_directory_sorted (listing : List RawNode) (show_hidden : Bool) :
    List.Chain' (fun a b =>
      (a.is_dir = true ∧ b.is_dir = false) ∨
      (a.is_dir = b.is_dir ∧
        cmpChars (lowerStr a.name).data (lowerStr b.name).data ≠ Ordering.gt))
      (readDirectoryEntries listing show_hidden) := by
  have hp := @List.sorted_mergeSort FileEntry entryLe entryLe_trans entryLe_total
    ((listing.filterMap getFileEntry).filter
      (fun e => show_hidden || !e.hidden))
  unfold readDirectoryEntries
  refine List.Pairwise.chain' (hp.imp ?_)
  intro a b hab
  have h := (entryLe_iff a b).mp hab
  unfold entryCmp at h
  cases ha : a.is_dir <;> cases hb : b.is_dir <;>
    simp only [ha, hb, Bool.not_true, Bool.not_false, Bool.and_self,
      Bool.and_true, Bool.and_false, Bool.true_and, Bool.false_and,
      ite_true, ite_false] at h
  · exact Or.inr ⟨rfl, h⟩
  · exact absurd rfl h
  · exact Or.inl ⟨rfl, rfl⟩
  · exact Or.inr ⟨rfl, h⟩

/-! ## indexer.rs : search and the ingest worker -/

/-- Mirror of the Rust `SearchResult` struct (indexer.rs, lines 12-19). -/
structure SearchResult where
  name : String
  path : String
  is_dir : Bool
  hidden : Bool
  score : Int
deriving DecidableEq, Repr

/-- Mirror of the Rust `IndexerStatus` struct (indexer.rs, lines 21-27). -/
structure IndexerStatus where
  is_running : Bool
  indexed_count : Nat
  current_path : Option String
  elapsed_ms : Nat
deriving DecidableEq, Repr

/-- Replacement of one query character in `search_fts`
(indexer.rs, lines 203-209): the eight FTS5 operator characters become
a space, everything else passes through. -/
def sanitizeChar (c : Char) : Char :=
  if c = '"' ∨ c = '*' ∨ c = '+' ∨ c = '-' ∨ c = '(' ∨ c = ')' ∨
      c = ':' ∨ c = '^' then ' ' else c

/-- The `escaped_query` built by `search_fts`. -/
def escapedQuery (q : String) : String :=
  ⟨q.data.map sanitizeChar⟩

/-- The `fts_query` match expression built by `search_fts`
(indexer.rs, line 211). -/
def ftsQueryOf (q : String) : String :=
  "\"" ++ escapedQuery q ++ "\"*"

/-- SQLite oracle for `search_fts`: whether `get_connection` and
`prepare` succeed, and the rows `query_map` yields for a given match
expression and limit.  `none` models a failed `query_map`; a `none` row
models a row-level error (dropped by `filter_map(r.ok())`). -/
structure FtsDb where
  connOk : Bool
  prepOk : Bool
  run : String → Nat → Option (List (Option SearchResult))

/-- Mirror of `search_fts` (indexer.rs, lines 197-240): every failure
path returns the empty list; otherwise the sanitized phrase-prefix
expression is passed to the database. -/
def searchFts (db : FtsDb) (query : String) (limit : Nat) :
    List SearchResult :=
  if !db.connOk then []
  else if !db.prepOk then []
  else ((db.run (ftsQueryOf query) limit).map
    (fun rows => rows.filterMap id)).getD []

/-- One candidate row of `search_fuzzy`'s LIKE query:
`(name, path, is_dir, hidden)`. -/
structure FuzzyCand where
  name : String
  path : String
  is_dir : Bool
  hidden : Bool
deriving DecidableEq, Repr

/-- SQLite oracle for `search_fuzzy`, keyed by the LIKE pattern. -/
structure FuzzyDb where
  connOk : Bool
  prepOk : Bool
  run : String → Option (List (Option FuzzyCand))

/-- Descending-score order used by `results.sort_by(|a, b|
b.score.cmp(&a.score))` in `search_fuzzy`. -/
def scoreDescLe (a b : SearchResult) : Bool :=
  b.score ≤ a.score

/-- Mirror of `search_fuzzy` (indexer.rs, lines 242-290).  The
`SkimMatcherV2` scorer from the external `fuzzy_matcher` crate is an
oracle parameter `matcher name query : Option Int`. -/
def searchFuzzy (db : FuzzyDb) (matcher : String → String → Option Int)
    (query : String) (limit : Nat) : List SearchResult :=
  if !db.connOk then []
  else if !db.prepOk then []
  else
    let candidates := ((db.run ("%" ++ query ++ "%")).map
      (fun rows => rows.filterMap id)).getD []
    let results := candidates.filterMap (fun c =>
      ((matcher c.name query).orElse (fun _ => matcher c.path query)).map
        (fun score => SearchResult.mk c.name c.path c.is_dir c.hidden score))
    (results.mergeSort scoreDescLe).take limit

/-- The characters the spec says are replaced by a space. -/
def ftsOperatorChars : List Char :=
  ['"', '*', '+', '-', '(', ')', ':', '^']

theorem sanitizeChar_eq (c : Char) :
    sanitizeChar c = if c ∈ ftsOperatorChars then ' ' else c := by
  unfold sanitizeChar ftsOperatorChars
  simp

/-- C3: For every query `q`, `search_fts` sanitizes `q` by replacing
every occurrence of each character in `" * + - ( ) : ^` (and `"`) with
a single space, and builds the FTS match expression `"<sanitized>"*`;
in particular the query `foo*bar(x)` is turned into the phrase-prefix
expression `"foo bar x "*` and never produces an error. -/
theorem C3_fts_query_sanitized :
    (ftsQueryOf "foo*bar(x)" = "\"foo bar x \"*") ∧
    (∀ (q : String) (i : Nat),
      (escapedQuery q).data.getD i ' ' =
        if q.data.getD i ' ' ∈ ftsOperatorChars then ' '
        else q.data.getD i ' ') ∧
    (∀ (q : String), (escapedQuery q).data.length = q.data.length ∧
      ftsQueryOf q = "\"" ++ escapedQuery q ++ "\"*") ∧
    (∀ (db : FtsDb) (limit : Nat), db.connOk = true → db.prepOk = true →
      searchFts db "foo*bar(x)" limit =
        ((db.run "\"foo bar x \"*" limit).map
          (fun rows => rows.filterMap id)).getD []) := by
  refine ⟨by decide, ?_, ?_, ?_⟩
  · intro q i
    unfold escapedQuery
    by_cases h : i < q.data.length
    · rw [List.getD_eq_getElem?_getD, List.getD_eq_getElem?_getD,
        List.getElem?_map]
      rw [List.getElem?_eq_getElem h]
      simp [sanitizeChar_eq]
    · have h1 : q.data.length ≤ i := Nat.le_of_not_lt h
      rw [List.getD_eq_getElem?_getD, List.getD_eq_getElem?_getD]
      rw [List.getElem?_eq_none (by simpa using h1),
        List.getElem?_eq_none h1]
      simp [ftsOperatorChars]
  · intro q
    exact ⟨by simp [escapedQuery], rfl⟩
  · intro db limit hc hp
    unfold searchFts
    rw [hc, hp]
    simp only [Bool.not_true, Bool.false_eq_true, if_false]
    have : ftsQueryOf "foo*bar(x)" = "\"foo bar x \"*" := by decide
    rw [this]

theorem C3_fts_query_sanitized_witness :
    ((escapedQuery "a*b").data.getD 1 ' ' =
      if ("a*b".data.getD 1 ' ') ∈ ftsOperatorChars then ' '
      else "a*b".data.getD 1 ' ') ∧
    searchFts ⟨true, true, fun _ _ => some []⟩ "foo*bar(x)" 10 =
      ((FtsDb.run ⟨true, true, fun _ _ => some []⟩ "\"foo bar x \"*" 10).map
        (fun rows => rows.filterMap id)).getD [] :=
  ⟨C3_fts_query_sanitized.2.1 "a*b" 1,
   C3_fts_query_sanitized.2.2.2 ⟨true, true, fun _ _ => some []⟩ 10 rfl rfl⟩

/-- C7: `search_fts` and `search_fuzzy` never return an error to the
caller: for every query and limit, if opening the connection, preparing
the statement, or running the query fails, the result is the empty
sequence. -/
theorem C7_search_failures_yield_empty :
    (∀ (db : FtsDb) (q : String) (limit : Nat),
      db.connOk = false ∨ db.prepOk = false ∨
        db.run (ftsQueryOf q) limit = none →
      searchFts db q limit = []) ∧
    (∀ (db : FuzzyDb) (matcher : String → String → Option Int)
        (q : String) (limit : Nat),
      db.connOk = false ∨ db.prepOk = false ∨
        db.run ("%" ++ q ++ "%") = none →
      searchFuzzy db matcher q limit = []) := by
  constructor
  · intro db q limit h
    unfold searchFts
    rcases h with h | h | h
    · rw [h]; rfl
    · rw [h]
      cases db.connOk <;> rfl
    · rw [h]
      cases db.connOk <;> cases db.prepOk <;> rfl
  · intro db matcher q limit h
    unfold searchFuzzy
    rcases h with h | h | h
    · rw [h]; rfl
    · rw [h]
      cases db.connOk <;> rfl
    · rw [h]
      cases hc : db.connOk <;> cases hp : db.prepOk <;> simp

theorem C7_search_failures_yield_empty_witness :
    searchFts ⟨false, true, fun _ _ => some []⟩ "abc" 10 = [] ∧
    searchFuzzy ⟨true, true, fun _ => none⟩ (fun _ _ => some 1) "abc" 10 = [] :=
  ⟨C7_search_failures_yield_empty.1 ⟨false, true, fun _ _ => some []⟩ "abc" 10
      (Or.inl rfl),
   C7_search_failures_yield_empty.2 ⟨true, true, fun _ => none⟩
      (fun _ _ => some 1) "abc" 10 (Or.inr (Or.inr rfl))⟩

/-- The first status publication of the ingest worker spawned by
`index_directory` (indexer.rs, lines 128-133): it assigns
`is_running`, `current_path` and `indexed_count` on the shared status. -/
def firstPublish (root : String) (s : IndexerStatus) : IndexerStatus :=
  { s with is_running := true, current_path := some root,
           indexed_count := 0 }

/-- Number of row inserts that succeed in the ingest loop
(indexer.rs, lines 137-179): zero when the connection cannot be opened
or the statement cannot be prepared, otherwise the count of indices
whose `execute` call succeeds (each failure is discarded by `let _ =`). -/
def insertedCount (entries : List FileEntry) (connOk prepOk : Bool)
    (insertOk : Nat → Bool) : Nat :=
  if connOk && prepOk then
    ((List.range entries.length).filter insertOk).length
  else 0

/-- The final status publication of the ingest worker
(indexer.rs, lines 187-193). -/
def finalPublish (entries : List FileEntry) (elapsedFinal : Nat)
    (s : IndexerStatus) : IndexerStatus :=
  { s with is_running := false, indexed_count := entries.length,
           elapsed_ms := elapsedFinal, current_path := none }

/-- End-to-end model of the worker thread of `index_directory`
(indexer.rs, lines 125-194): the status after the final publication,
paired with how many rows were actually inserted.  `entries` is the
crawl result, `connOk`/`prepOk`/`insertOk` the SQLite oracle, and
`elapsedFinal` the wall-clock reading at the end. -/
def ingestWorker (root : String) (entries : List FileEntry)
    (connOk prepOk : Bool) (insertOk : Nat → Bool) (elapsedFinal : Nat)
    (s : IndexerStatus) : IndexerStatus × Nat :=
  (finalPublish entries elapsedFinal (firstPublish root s),
   insertedCount entries connOk prepOk insertOk)

/-- C8 counterexample: after a previous indexing run left
`elapsed_ms = 5`, the first publication of a new run does not set
`elapsed_ms` to `0` — the field is simply not assigned. -/
theorem C8_first_publish_counterexample :
    (firstPublish "/data" ⟨false, 7, none, 5⟩).is_running = true ∧
    (firstPublish "/data" ⟨false, 7, none, 5⟩).current_path = some "/data" ∧
    (firstPublish "/data" ⟨false, 7, none, 5⟩).indexed_count = 0 ∧
    (firstPublish "/data" ⟨false, 7, none, 5⟩).elapsed_ms = 5 ∧
    (firstPublish "/data" ⟨false, 7, none, 5⟩).elapsed_ms ≠ 0 := by
  decide

/-- C8 (amended): when the ingest worker begins, its first status
publication sets `is_running = true`, `current_path = root` and
`indexed_count = 0`, and leaves `elapsed_ms` unchanged (so it is `0`
only when it was `0` before, e.g. on the first run). -/
theorem C8_first_publish_amended (root : String) (s : IndexerStatus) :
    (firstPublish root s).is_running = true ∧
    (firstPublish root s).current_path = some root ∧
    (firstPublish root s).indexed_count = 0 ∧
    (firstPublish root s).elapsed_ms = s.elapsed_ms :=
  ⟨rfl, rfl, rfl, rfl⟩

/-- C9: Whenever the ingest worker spawned by `index_directory`
terminates, it sets `is_running = false`, `current_path = None`, and
`indexed_count` equal to the number of entries returned by the crawl —
even when opening the database connection failed or every row insert
failed — so the published `indexed_count` can exceed the number of rows
actually stored in the index. -/
theorem C9_final_status_counts_crawl :
    (∀ (root : String) (entries : List FileEntry) (connOk prepOk : Bool)
        (insertOk : Nat → Bool) (elapsedFinal : Nat) (s : IndexerStatus),
      (ingestWorker root entries connOk prepOk insertOk elapsedFinal
        s).1.is_running = false ∧
      (ingestWorker root entries connOk prepOk insertOk elapsedFinal
        s).1.current_path = none ∧
      (ingestWorker root entries connOk prepOk insertOk elapsedFinal
        s).1.indexed_count = entries.length ∧
      (ingestWorker root entries connOk prepOk insertOk elapsedFinal
        s).2 ≤ entries.length) ∧
    (∀ (entries : List FileEntry) (insertOk : Nat → Bool)
        (elapsedFinal : Nat) (s : IndexerStatus),
      (ingestWorker "/r" entries false true insertOk elapsedFinal s).2 = 0 ∧
      (ingestWorker "/r" entries true true (fun _ => false) elapsedFinal
        s).2 = 0) := by
  constructor
  · intro root entries connOk prepOk insertOk elapsedFinal s
    refine ⟨rfl, rfl, rfl, ?_⟩
    unfold ingestWorker insertedCount
    by_cases h : (connOk && prepOk) = true
    · rw [if_pos h]
      calc ((List.range entries.length).filter insertOk).length
          ≤ (List.range entries.length).length := List.length_filter_le _ _
        _ = entries.length := List.length_range _
    · rw [if_neg h]
      exact Nat.zero_le _
  · intro entries insertOk elapsedFinal s
    constructor
    · rfl
    · unfold ingestWorker insertedCount
      simp

/-! ## bin/portal.rs : file:// URI encoding -/

/-- Split a character list at every occurrence of `sep`, keeping empty
segments — the model of Rust `str::split('/')`. -/
def splitChar (sep : Char) : List Char → List (List Char)
  | [] => [[]]
  | c :: cs =>
    match splitChar sep cs with
    | [] => [[]]
    | g :: gs => if c = sep then [] :: g :: gs else (c :: g) :: gs

/-- Join character-list segments with `sep` between them. -/
def joinChars (sep : Char) : List (List Char) → List Char
  | [] => []
  | [g] => g
  | g :: gs => g ++ sep :: joinChars sep gs

/-- UTF-8 encoding of one scalar value as a list of byte values — the
model of Rust `str::bytes()` taken per character. -/
def utf8Bytes (c : Char) : List Nat :=
  let n := c.toNat
  if n < 0x80 then [n]
  else if n < 0x800 then
    [0xC0 ||| (n >>> 6), 0x80 ||| (n &&& 0x3F)]
  else if n < 0x10000 then
    [0xE0 ||| (n >>> 12), 0x80 ||| ((n >>> 6) &&& 0x3F), 0x80 ||| (n &&& 0x3F)]
  else
    [0xF0 ||| (n >>> 18), 0x80 ||| ((n >>> 12) &&& 0x3F),
     0x80 ||| ((n >>> 6) &&& 0x3F), 0x80 ||| (n &&& 0x3F)]

/-- Uppercase hexadecimal digit, as produced by Rust `{:02X}`. -/
def hexDigitU (n : Nat) : Char :=
  "0123456789ABCDEF".data.getD n '0'

/-- RFC 3986 unreserved bytes (`A-Z a-z 0-9 - _ . ~`), the byte match
of `encode_file_uri` (portal.rs, lines 26-27). -/
def unreservedByte (b : Nat) : Bool :=
  (65 ≤ b ∧ b ≤ 90) ∨ (97 ≤ b ∧ b ≤ 122) ∨ (48 ≤ b ∧ b ≤ 57) ∨
    b = 45 ∨ b = 95 ∨ b = 46 ∨ b = 126

/-- Per-byte encoding of `encode_file_uri` (portal.rs, lines 25-31):
unreserved bytes pass through, everything else becomes `%XX`. -/
def encodeByte (b : Nat) : List Char :=
  if unreservedByte b then [Char.ofNat b]
  else ['%', hexDigitU (b / 16), hexDigitU (b % 16)]

/-- Percent-encode one path segment byte-wise. -/
def encodeSegment (seg : List Char) : List Char :=
  ((seg.map utf8Bytes).flatten.map encodeByte).flatten

/-- Mirror of `encode_file_uri` (portal.rs, lines 20-37). -/
def encodeFileUri (path : String) : String :=
  ⟨"file://".data ++ joinChars '/' ((splitChar '/' path.data).map encodeSegment)⟩

/-- C4: `encode_file_uri(p)` equals `file://` followed by the
`'/'`-separated segments of `p`, where within each segment every byte
in `[A-Za-z0-9-_.~]` passes through unchanged and every other byte `b`
becomes `%XX` with `XX` the uppercase hexadecimal of `b`; e.g. the path
`/tmp/a b/ünicode.txt` encodes to `file:///tmp/a%20b/%C3%BCnicode.txt`. -/
theorem C4_encode_file_uri :
    (encodeFileUri "/tmp/a b/ünicode.txt" =
      "file:///tmp/a%20b/%C3%BCnicode.txt") ∧
    (∀ (p : String), encodeFileUri p =
      ⟨"file://".data ++
        joinChars '/' ((splitChar '/' p.data).map encodeSegment)⟩) ∧
    (∀ (b : Nat),
      (unreservedByte b = true ∧ encodeByte b = [Char.ofNat b]) ∨
      (unreservedByte b = false ∧
        encodeByte b = ['%', hexDigitU (b / 16), hexDigitU (b % 16)])) := by
  refine ⟨by decide, fun p => rfl, fun b => ?_⟩
  by_cases h : unreservedByte b = true
  · exact Or.inl ⟨h, by unfold encodeByte; rw [if_pos h]⟩
  · have h' : unreservedByte b = false := by
      cases hu : unreservedByte b
      · rfl
      · exact absurd hu h
    exact Or.inr ⟨h', by unfold encodeByte; rw [if_neg (by rw [h']; decide)]⟩

/-! ## bin/portal.rs : picker launch and replies -/

/-- Outcome of spawning the picker child process: the spawn itself can
fail, or the child exits (successfully or not) with some stdout lines. -/
inductive PickerOutcome where
  | spawnFail
  | exited (success : Bool) (stdoutLines : List String)

/-- The stdout marker scanned for by `launch_picker`. -/
def selMarker : String := "HARDBORE_SELECTED:"

/-- Rust `line.strip_prefix("HARDBORE_SELECTED:")`. -/
def stripMarker (line : String) : Option String :=
  if selMarker.data.isPrefixOf line.data then
    some ⟨line.data.drop selMarker.data.length⟩
  else none

/-- Mirror of `launch_picker` (portal.rs, lines 180-219): on a
successful exit, the lines carrying the marker (with the marker
stripped); on spawn failure or unsuccessful exit, the empty list. -/
def launchPicker (r : PickerOutcome) : List String :=
  match r with
  | .spawnFail => []
  | .exited success lines =>
    if success then lines.filterMap stripMarker else []

/-- Mirror of `build_response` (portal.rs, lines 261-272): the reply is
`(1, {})` for an empty URI list and `(0, {"uris": ...})` otherwise; the
`uris` entry of the vardict is modelled as `Option (List String)`. -/
def buildResponse (uris : List String) : Nat × Option (List String) :=
  if uris = [] then (1, none) else (0, some uris)

/-- Reply of the `OpenFile` method (portal.rs, lines 306-308); the
`SaveFile` method (lines 333-335) computes its reply identically. -/
def openFileReply (r : PickerOutcome) : Nat × Option (List String) :=
  buildResponse ((launchPicker r).map encodeFileUri)

/-- Reply of the `SaveFiles` method (portal.rs, lines 359-374): an
empty selection is an early `(1, {})`; otherwise the URIs come from the
requested filenames joined onto the first selected directory, or from
the directory itself when no filenames were supplied. -/
def saveFilesReply (r : PickerOutcome) (filenames : List String) :
    Nat × Option (List String) :=
  match launchPicker r with
  | [] => (1, none)
  | chosen :: _ =>
    buildResponse
      (if filenames = [] then [encodeFileUri chosen]
       else filenames.map (fun nm => encodeFileUri (chosen ++ "/" ++ nm)))

/-- The failure condition named by the claim: spawn failure,
unsuccessful exit, or no stdout line carrying the marker. -/
def pickerFailed (r : PickerOutcome) : Bool :=
  match r with
  | .spawnFail => true
  | .exited success lines =>
    !success || lines.all (fun l => (stripMarker l).isNone)

theorem launchPicker_ne_nil {r : PickerOutcome}
    (h : pickerFailed r = false) : launchPicker r ≠ [] := by
  cases r with
  | spawnFail => simp [pickerFailed] at h
  | exited success lines =>
    cases success with
    | false => simp [pickerFailed] at h
    | true =>
      simp only [pickerFailed, Bool.not_true, Bool.false_or] at h
      rcases List.all_eq_false.mp h with ⟨l, hl, hne⟩
      intro hnil
      simp only [launchPicker, if_pos rfl, ite_true] at hnil
      have := (List.filterMap_eq_nil_iff.mp hnil) l hl
      rw [this] at hne
      simp at hne

/-- C5 counterexample: the `SaveFiles` portal method with a successful
picker run and two requested filenames replies with two URIs for a
single selected path, so the reply is not "one `file://` URI per
selected path" as the claim states for every portal method call. -/
theorem C5_reply_counterexample :
    saveFilesReply (.exited true ["HARDBORE_SELECTED:/d"]) ["a", "b"] =
      (0, some ["file:///d/a", "file:///d/b"]) ∧
    launchPicker (.exited true ["HARDBORE_SELECTED:/d"]) = ["/d"] ∧
    (["file:///d/a", "file:///d/b"] : List String).length ≠
      (["/d"] : List String).length := by
  decide

/-- C5 (amended): for every portal method call, if the picker child
fails to spawn, exits unsuccessfully, or prints no line beginning with
`HARDBORE_SELECTED:`, then the list of selected paths is empty and the
reply is `(1, {})`.  Otherwise `OpenFile` and `SaveFile` reply
`(0, {"uris": one file:// URI per selected path})`, while `SaveFiles`
replies `(0, {"uris": ...})` with one URI per requested filename joined
onto the first selected directory (or that directory's own URI when no
filenames were supplied). -/
theorem C5_reply_semantics :
    (∀ (r : PickerOutcome), pickerFailed r = true →
      launchPicker r = [] ∧ openFileReply r = (1, none) ∧
      ∀ (fns : List String), saveFilesReply r fns = (1, none)) ∧
    (∀ (r : PickerOutcome), pickerFailed r = false →
      openFileReply r = (0, some ((launchPicker r).map encodeFileUri)) ∧
      ((launchPicker r).map encodeFileUri).length =
        (launchPicker r).length) ∧
    (∀ (r : PickerOutcome) (fns : List String), pickerFailed r = false →
      ∃ d rest, launchPicker r = d :: rest ∧
        saveFilesReply r fns = (0, some
          (if fns = [] then [encodeFileUri d]
           else fns.map (fun nm => encodeFileUri (d ++ "/" ++ nm))))) := by
  refine ⟨?_, ?_, ?_⟩
  · intro r h
    have hsel : launchPicker r = [] := by
      cases r with
      | spawnFail => rfl
      | exited success lines =>
        cases success with
        | false => rfl
        | true =>
          simp only [pickerFailed, Bool.not_true, Bool.false_or,
            List.all_eq_true] at h
          simp only [launchPicker, ite_true]
          exact List.filterMap_eq_nil_iff.mpr (fun l hl => by
            have := h l hl
            simpa [Option.isNone_iff_eq_none] using this)
    refine ⟨hsel, ?_, ?_⟩
    · unfold openFileReply buildResponse
      rw [hsel]
      rfl
    · intro fns
      unfold saveFilesReply
      rw [hsel]
  · intro r h
    have hsel := launchPicker_ne_nil h
    constructor
    · unfold openFileReply buildResponse
      rw [if_neg (by simpa using hsel)]
    · exact List.length_map _ _
  · intro r fns h
    have hsel := launchPicker_ne_nil h
    cases hl : launchPicker r with
    | nil => exact absurd hl hsel
    | cons d rest =>
      refine ⟨d, rest, rfl, ?_⟩
      have hstep : saveFilesReply r fns = buildResponse
          (if fns = [] then [encodeFileUri d]
           else fns.map (fun nm => encodeFileUri (d ++ "/" ++ nm))) := by
        unfold saveFilesReply
        rw [hl]
      rw [hstep]
      by_cases hf : fns = []
      · subst hf
        simp [buildResponse]
      · rw [if_neg hf]
        simp [buildResponse, hf]

theorem C5_reply_semantics_witness :
    (launchPicker .spawnFail = [] ∧ openFileReply .spawnFail = (1, none) ∧
      ∀ (fns : List String), saveFilesReply .spawnFail fns = (1, none)) ∧
    (openFileReply (.exited true ["HARDBORE_SELECTED:/tmp/x"]) =
        (0, some ((launchPicker
          (.exited true ["HARDBORE_SELECTED:/tmp/x"])).map encodeFileUri)) ∧
      ((launchPicker
          (.exited true ["HARDBORE_SELECTED:/tmp/x"])).map
            encodeFileUri).length =
        (launchPicker (.exited true ["HARDBORE_SELECTED:/tmp/x"])).length) :=
  ⟨C5_reply_semantics.1 .spawnFail rfl,
   C5_reply_semantics.2.1 (.exited true ["HARDBORE_SELECTED:/tmp/x"])
     (by decide)⟩

/-! ## bin/portal.rs : filter parsing and picker argv -/

/-- The fragment of serde_json values `parse_filters` inspects:
strings, unsigned integers, arrays, and anything else. -/
inductive JVal where
  | jstr (s : String)
  | jnum (n : Nat)
  | jarr (xs : List JVal)
  | jother
deriving Repr

/-- Rust `Value::as_array`. -/
def JVal.asArr : JVal → Option (List JVal)
  | .jarr xs => some xs
  | _ => none

/-- Rust `Value::as_str`. -/
def JVal.asStr : JVal → Option String
  | .jstr s => some s
  | _ => none

/-- Rust `Value::as_u64`. -/
def JVal.asNum : JVal → Option Nat
  | .jnum n => some n
  | _ => none

/-- Rust `tuple[i]` on a decoded JSON array (indexing a `Vec<Value>`;
always guarded by a length check in the source, so the default is
never reached there). -/
def jget (xs : List JVal) (i : Nat) : JVal :=
  xs.getD i .jother

/-- Mirror of the Rust `FileFilter` struct (portal.rs, lines 10-14). -/
structure FileFilter where
  name : String
  patterns : List String
deriving DecidableEq, Repr

/-- One iteration of the inner pattern loop of `parse_filters`
(portal.rs, lines 140-150): a pattern tuple is kept when it is an array
of length at least two whose match type decodes to `0` and whose glob
string is non-empty. -/
def parsePat (pat : JVal) : Option String :=
  match pat.asArr with
  | none => none
  | some pt =>
    if pt.length < 2 then none
    else if ((jget pt 0).asNum).getD 99 = 0 ∧
        ((jget pt 1).asStr).getD "" ≠ "" then
      some (((jget pt 1).asStr).getD "")
    else none

/-- The patterns collected from `tuple[1]` (portal.rs, lines 139-151). -/
def patternsOf (v : JVal) : List String :=
  match v.asArr with
  | none => []
  | some pats => pats.filterMap parsePat

/-- One iteration of the outer loop of `parse_filters`
(portal.rs, lines 131-156). -/
def parseFilterItem (item : JVal) : Option FileFilter :=
  match item.asArr with
  | none => none
  | some t =>
    if t.length < 2 then none
    else if patternsOf (jget t 1) = [] then none
    else some ⟨((jget t 0).asStr).getD "Filter",
               patternsOf (jget t 1)⟩

/-- Mirror of `parse_filters` (portal.rs, lines 111-159); `none` merges
the absent-key and serialization-failure early returns. -/
def parseFilters (v : Option JVal) : List FileFilter :=
  match v with
  | none => []
  | some val =>
    match val.asArr with
    | none => []
    | some arr => arr.filterMap parseFilterItem

/-- Rust `p.strip_prefix("*.")` as used by `build_picker_args`
(portal.rs, line 238). -/
def stripStar (p : String) : Option String :=
  if "*.".data.isPrefixOf p.data then some ⟨p.data.drop 2⟩ else none

/-- The extension list flattened from all filters
(portal.rs, lines 234-241). -/
def extsOf (filters : List FileFilter) : List String :=
  filters.flatMap (fun f => f.patterns.filterMap stripStar)

/-- Rust `extensions.join(",")`. -/
def joinComma (xs : List String) : String :=
  ⟨joinChars ',' (xs.map (fun s => s.data))⟩

/-- Mirror of `build_picker_args` (portal.rs, lines 221-259). -/
def buildPickerArgs (mode : String) (multiple : Bool)
    (filters : List FileFilter) (current_folder current_name : Option String) :
    List String :=
  [mode]
  ++ (if multiple then ["--multiple"] else [])
  ++ (if extsOf filters = [] then []
      else ["--types", joinComma (extsOf filters)])
  ++ (match current_folder with
      | some f => ["--start-dir", f]
      | none => [])
  ++ (match current_name with
      | some n => ["--current-name", n]
      | none => [])

/-- The per-pattern extension contribution exactly as the claim words
it: a pattern contributes its `*.`-stripped extension when its match
type is `0` and its glob is shaped `*.ext`, and nothing otherwise. -/
def claimPat (pat : JVal) : Option String :=
  match pat.asArr with
  | none => none
  | some pt =>
    if pt.length < 2 then none
    else if ((jget pt 0).asNum).getD 99 = 0 then
      stripStar (((jget pt 1).asStr).getD "")
    else none

/-- The per-filter extension contribution as the claim words it. -/
def claimItem (item : JVal) : List String :=
  match item.asArr with
  | none => []
  | some t =>
    if t.length < 2 then []
    else
      match (jget t 1).asArr with
      | none => []
      | some pats => pats.filterMap claimPat

/-- The extension list as the claim words it: across all filters, in
order, the contributions of the accepted patterns. -/
def claimedTypeExts (items : List JVal) : List String :=
  items.flatMap claimItem

theorem stripStar_empty : stripStar "" = none := rfl

theorem parsePat_bind_stripStar (pat : JVal) :
    (parsePat pat).bind stripStar = claimPat pat := by
  cases pat with
  | jstr s => rfl
  | jnum n => rfl
  | jother => rfl
  | jarr pt =>
    simp only [parsePat, claimPat, JVal.asArr]
    by_cases hlen : pt.length < 2
    · simp [hlen]
    · by_cases hmt : ((jget pt 0).asNum).getD 99 = 0
      · by_cases hp : ((jget pt 1).asStr).getD "" = ""
        · simp [hlen, hmt, hp, stripStar_empty]
        · simp [hlen, hmt, hp]
      · simp [hlen, hmt]

theorem patterns_strip (pats : List JVal) :
    (pats.filterMap parsePat).filterMap stripStar =
      pats.filterMap claimPat := by
  rw [List.filterMap_filterMap]
  exact congrArg (fun f => List.filterMap f pats)
    (funext parsePat_bind_stripStar)

theorem item_strip_eq (item : JVal) :
    (parseFilterItem item).elim []
      (fun f => f.patterns.filterMap stripStar) = claimItem item := by
  cases item with
  | jstr s => rfl
  | jnum n => rfl
  | jother => rfl
  | jarr t =>
    by_cases hlen : t.length < 2
    · simp [parseFilterItem, claimItem, JVal.asArr, hlen]
    · cases hval : jget t 1 with
      | jstr s => simp [parseFilterItem, claimItem, patternsOf, JVal.asArr, hval, hlen]
      | jnum n => simp [parseFilterItem, claimItem, patternsOf, JVal.asArr, hval, hlen]
      | jother => simp [parseFilterItem, claimItem, patternsOf, JVal.asArr, hval, hlen]
      | jarr pats =>
        by_cases hnil : pats.filterMap parsePat = []
        · simp [parseFilterItem, claimItem, patternsOf, JVal.asArr, hval,
            hlen, hnil, ← patterns_strip]
        · simp [parseFilterItem, claimItem, patternsOf, JVal.asArr, hval,
            hlen, hnil, patterns_strip pats]

theorem filters_exts (items : List JVal) :
    (items.filterMap parseFilterItem).flatMap
      (fun f => f.patterns.filterMap stripStar) =
    items.flatMap claimItem := by
  induction items with
  | nil => rfl
  | cons item rest ih =>
    have h := item_strip_eq item
    cases hitem : parseFilterItem item with
    | none =>
      rw [hitem, Option.elim_none] at h
      simp only [List.filterMap_cons, List.flatMap_cons, hitem]
      rw [ih, ← h]
      simp
    | some f =>
      rw [hitem, Option.elim_some] at h
      simp only [List.filterMap_cons, List.flatMap_cons, hitem]
      rw [ih, h]

theorem extsOf_parseFilters (items : List JVal) :
    extsOf (parseFilters (some (.jarr items))) = claimedTypeExts items :=
  filters_exts items

/-- C6: For every `OpenFile` options dictionary, the picker argv
contains a `--types` argument exactly when some filter pattern has
`match_type == 0` and is shaped `*.ext`; its value is the comma-joined
list of the `*.`-stripped extensions of all such patterns across all
filters, in order; patterns with `match_type != 0` or not shaped
`*.ext` contribute nothing.  In particular
`filters = [("Images", [(0,"*.png"),(0,"*.jpg")])]` yields the argv
pair `--types png,jpg`. -/
theorem C6_types_argument :
    (parseFilters (some (.jarr [.jarr [.jstr "Images",
        .jarr [.jarr [.jnum 0, .jstr "*.png"],
               .jarr [.jnum 0, .jstr "*.jpg"]]]])) =
      [⟨"Images", ["*.png", "*.jpg"]⟩] ∧
     buildPickerArgs "--picker" false
        (parseFilters (some (.jarr [.jarr [.jstr "Images",
          .jarr [.jarr [.jnum 0, .jstr "*.png"],
                 .jarr [.jnum 0, .jstr "*.jpg"]]]]))) none none =
       ["--picker", "--types", "png,jpg"]) ∧
    (∀ (items : List JVal),
      extsOf (parseFilters (some (.jarr items))) = claimedTypeExts items) ∧
    (∀ (filters : List FileFilter) (mode : String) (multiple : Bool)
        (cf cn : Option String),
      mode ≠ "--types" → cf ≠ some "--types" → cn ≠ some "--types" →
      (("--types" ∈ buildPickerArgs mode multiple filters cf cn) ↔
        extsOf filters ≠ []) ∧
      (extsOf filters ≠ [] → ∃ pre post,
        buildPickerArgs mode multiple filters cf cn =
          pre ++ "--types" :: joinComma (extsOf filters) :: post)) := by
  refine ⟨by decide, extsOf_parseFilters, ?_⟩
  intro filters mode multiple cf cn hm hf hn
  have hM : ¬ ("--types" = mode) := fun h => hm h.symm
  have hA : "--types" ∉ (if multiple then ["--multiple"] else []) := by
    cases multiple
    · decide
    · decide
  have hC : "--types" ∉ (match cf with
      | some f => ["--start-dir", f]
      | none => ([] : List String)) := by
    cases cf with
    | none => simp
    | some f =>
      intro hmem
      rcases List.mem_cons.mp hmem with h1 | h2
      · exact absurd h1 (by decide)
      · have hh : "--types" = f := List.mem_singleton.mp h2
        exact hf (by rw [← hh])
  have hD : "--types" ∉ (match cn with
      | some n => ["--current-name", n]
      | none => ([] : List String)) := by
    cases cn with
    | none => simp
    | some n =>
      intro hmem
      rcases List.mem_cons.mp hmem with h1 | h2
      · exact absurd h1 (by decide)
      · have hh : "--types" = n := List.mem_singleton.mp h2
        exact hn (by rw [← hh])
  have hB : ("--types" ∈ (if extsOf filters = [] then []
      else ["--types", joinComma (extsOf filters)])) ↔
      extsOf filters ≠ [] := by
    by_cases hex : extsOf filters = []
    · rw [if_pos hex]
      simp [hex]
    · rw [if_neg hex]
      simp [hex]
  constructor
  · constructor
    · intro hmem
      simp only [buildPickerArgs, List.mem_append] at hmem
      rcases hmem with ((((h | h) | h) | h) | h)
      · exact absurd (List.mem_singleton.mp h) hM
      · exact absurd h hA
      · exact hB.mp h
      · exact absurd h hC
      · exact absurd h hD
    · intro hex
      simp only [buildPickerArgs, List.mem_append]
      exact Or.inl (Or.inl (Or.inr (hB.mpr hex)))
  · intro hex
    refine ⟨[mode] ++ (if multiple then ["--multiple"] else []),
      (match cf with
       | some f => ["--start-dir", f]
       | none => ([] : List String)) ++
      (match cn with
       | some n => ["--current-name", n]
       | none => ([] : List String)), ?_⟩
    unfold buildPickerArgs
    rw [if_neg hex]
    simp [List.append_assoc]
    cases cf <;> cases cn <;> rfl

theorem C6_types_argument_witness :
    (("--types" ∈ buildPickerArgs "--picker" false
        [⟨"Images", ["*.png"]⟩] none none) ↔
      extsOf [⟨"Images", ["*.png"]⟩] ≠ []) ∧
    (extsOf [⟨"Images", ["*.png"]⟩] ≠ [] → ∃ pre post,
      buildPickerArgs "--picker" false [⟨"Images", ["*.png"]⟩] none none =
        pre ++ "--types" :: joinComma (extsOf [⟨"Images", ["*.png"]⟩])
          :: post) :=
  C6_types_argument.2.2 [⟨"Images", ["*.png"]⟩] "--picker" false none none
    (by decide) (by decide) (by decide)

/-! ## lib.rs : command-line argument parsing -/

/-- Mirror of the Rust `PickerMode` enum (lib.rs, lines 21-28). -/
inductive PickerMode where
  | Disabled
  | Files
  | Directories
  | Both
  | Save
deriving DecidableEq, Repr

/-- Mirror of the Rust `PickerConfig` struct (lib.rs, lines 12-19). -/
structure PickerConfig where
  mode : PickerMode
  allow_multiple : Bool
  file_types : Option (List String)
  start_dir : Option String
  current_name : Option String
deriving DecidableEq, Repr

/-- Rust `args[i + 1].split(',').map(|s| s.to_string()).collect()`. -/
def splitComma (s : String) : List String :=
  (splitChar ',' s.data).map (fun g => ⟨g⟩)

/-- The `while i < args.len()` loop of `run` (lib.rs, lines 650-679),
acting on the argument list from index `i` onward and the accumulated
configuration.  A value-taking flag with no following element falls out
of the loop without consuming anything. -/
def parseLoop : List String → PickerConfig → PickerConfig
  | [], c => c
  | a :: rest, c =>
    if a = "--picker" then parseLoop rest { c with mode := .Files }
    else if a = "--picker-dirs" then
      parseLoop rest { c with mode := .Directories }
    else if a = "--picker-both" then parseLoop rest { c with mode := .Both }
    else if a = "--picker-save" then parseLoop rest { c with mode := .Save }
    else if a = "--multiple" then
      parseLoop rest { c with allow_multiple := true }
    else if a = "--types" then
      match rest with
      | v :: rest2 => parseLoop rest2 { c with file_types := some (splitComma v) }
      | [] => c
    else if a = "--start-dir" then
      match rest with
      | v :: rest2 => parseLoop rest2 { c with start_dir := some v }
      | [] => c
    else if a = "--current-name" then
      match rest with
      | v :: rest2 => parseLoop rest2 { c with current_name := some v }
      | [] => c
    else parseLoop rest c

/-- The configuration before any argument is processed
(lib.rs, lines 644-648). -/
def initialPickerConfig : PickerConfig :=
  ⟨.Disabled, false, none, none, none⟩

/-- Mirror of the argv-to-`PickerConfig` portion of `run`
(lib.rs, lines 642-687): the loop starts at index 1, past the program
name. -/
def parseArgs (argv : List String) : PickerConfig :=
  parseLoop (argv.drop 1) initialPickerConfig

/-- The four mode flags of the picker CLI. -/
def modeFlags : List String :=
  ["--picker", "--picker-dirs", "--picker-both", "--picker-save"]

/-- The mode a given mode flag selects. -/
def modeOf (s : String) : PickerMode :=
  if s = "--picker" then .Files
  else if s = "--picker-dirs" then .Directories
  else if s = "--picker-both" then .Both
  else if s = "--picker-save" then .Save
  else .Disabled

theorem parseLoop_mode_step (m : String) (rest : List String)
    (c : PickerConfig) (hm : m ∈ modeFlags) :
    parseLoop (m :: rest) c = parseLoop rest { c with mode := modeOf m } := by
  simp only [modeFlags, List.mem_cons, List.not_mem_nil, or_false] at hm
  rcases hm with rfl | rfl | rfl | rfl <;>
    · rw [parseLoop.eq_def]
      simp [modeOf]

/-- C10 counterexample: a `--types` flag in final position does not
leave `file_types` absent when an earlier `--types` set it, and a mode
flag consumed as the value of a preceding `--types` does not determine
the mode even though it is the last mode flag in argv. -/
theorem C10_argv_counterexample :
    (parseArgs ["hardbore", "--types", "png", "--types"]).file_types =
      some ["png"] ∧
    some ["png"] ≠ (none : Option (List String)) ∧
    (parseArgs ["hardbore", "--picker-dirs", "--types", "--picker"]).mode =
      PickerMode.Directories ∧
    PickerMode.Directories ≠ PickerMode.Files := by
  decide

/-- C10 (amended): argv parsing into `PickerConfig` is total and never
fails: unknown arguments are skipped; a mode flag processed as a flag
sets the mode and parsing continues, so when argv consists of mode
flags the last one determines the mode (a mode flag consumed as the
value of an immediately preceding `--types`/`--start-dir`/
`--current-name` is not processed as a flag); and when `--types`,
`--start-dir`, or `--current-name` is the final element of argv with no
following value, that flag is silently ignored and the whole
configuration — in particular the corresponding field — keeps its
previous value (absent when never set). -/
theorem C10_argv_parsing_amended :
    (∀ (x : String) (rest : List String) (c : PickerConfig),
      x ∉ ["--picker", "--picker-dirs", "--picker-both", "--picker-save",
           "--multiple", "--types", "--start-dir", "--current-name"] →
      parseLoop (x :: rest) c = parseLoop rest c) ∧
    (∀ (m : String) (rest : List String) (c : PickerConfig),
      m ∈ modeFlags →
      parseLoop (m :: rest) c = parseLoop rest { c with mode := modeOf m }) ∧
    (∀ (c : PickerConfig),
      parseLoop ["--types"] c = c ∧ parseLoop ["--start-dir"] c = c ∧
      parseLoop ["--current-name"] c = c) ∧
    (∀ (m : String) (ms : List String) (c : PickerConfig),
      m ∈ modeFlags → (∀ s ∈ ms, s ∈ modeFlags) →
      (parseLoop (m :: ms) c).mode =
        modeOf ((m :: ms).getLast (List.cons_ne_nil m ms))) := by
  refine ⟨?_, parseLoop_mode_step, fun c => ⟨rfl, rfl, rfl⟩, ?_⟩
  · intro x rest c hx
    simp only [List.mem_cons, List.not_mem_nil, or_false, not_or] at hx
    obtain ⟨h1, h2, h3, h4, h5, h6, h7, h8⟩ := hx
    rw [parseLoop.eq_def]
    simp only [h1, h2, h3, h4, h5, h6, h7, h8, if_false, ite_false]
  · have aux : ∀ (ms : List String), (∀ s ∈ ms, s ∈ modeFlags) →
        ∀ (m : String) (c : PickerConfig), m ∈ modeFlags →
        (parseLoop (m :: ms) c).mode =
          modeOf ((m :: ms).getLast (List.cons_ne_nil m ms)) := by
      intro ms
      induction ms with
      | nil =>
        intro _ m c hm
        rw [parseLoop_mode_step m [] c hm]
        rfl
      | cons m2 ms2 ih =>
        intro hms m c hm
        rw [parseLoop_mode_step m (m2 :: ms2) c hm]
        have hrec := ih (fun s hs => hms s (List.mem_cons_of_mem _ hs)) m2
          { c with mode := modeOf m } (hms m2 (List.mem_cons_self _ _))
        rw [hrec, List.getLast_cons (List.cons_ne_nil m2 ms2)]
    exact fun m ms c hm hms => aux ms hms m c hm

theorem C10_argv_parsing_amended_witness :
    parseLoop ["--frobnicate"] initialPickerConfig =
      parseLoop [] initialPickerConfig ∧
    (parseLoop ["--picker", "--picker-save"] initialPickerConfig).mode =
      modeOf (["--picker", "--picker-save"].getLast
        (List.cons_ne_nil "--picker" ["--picker-save"])) :=
  ⟨C10_argv_parsing_amended.1 "--frobnicate" [] initialPickerConfig
      (by decide),
   C10_argv_parsing_amended.2.2.2 "--picker" ["--picker-save"]
      initialPickerConfig (by decide) (by decide)⟩

end HardBore
